import Mathlib

/-!
Verification of the pub/sub messaging core of this repository.

The shallow embedding below translates, definition by definition, the
Python classes that implement the messaging core:

* `src/communication_queue.py` — `Message`, `CommunicationQueue`,
  `MessageSerializer`;
* `src/pubsub_module.py` — `PubSubWithQueue` (queue-per-subscriber
  variant) and its inner `consumer` worker loop;
* `src/demo.py` — `PubSubWithQueue` (named-subscription variant keyed by
  `(topic, name)`), `CommunicationTopic`, `PubSubMessage`.

Conventions of the embedding:

* Python `dict`s (insertion ordered) become association lists; insertion
  appends at the tail, as CPython preserves insertion order.
* The wall clock and `threading.get_ident()` are passed explicitly as
  integer parameters (`now`, `tid`); time is modelled by integer ticks.
* A Python callable that may raise becomes a function into `Except`;
  a Python method that may raise is embedded with an `Except` result so
  a raise is an explicit value rather than a crash.
* `queue.Queue` objects are given identities (`Nat`) held in a heap
  (`List (Nat × contents)`), since the Python registries hold references
  to shared mutable queues.
* The JSON text produced by `json.dumps` is modelled by its abstract
  value (`JValue`); `json.dumps`/`json.loads` form a bijection between
  that value and its textual form, so serialisation is embedded at the
  value level.
-/

/-- JSON-representable values: the payload domain of messages and the
codomain of `Message.to_dict`. -/
inductive JValue where
  | str : String → JValue
  | num : Int → JValue
  | bool : Bool → JValue
  | null : JValue
  | arr : List JValue → JValue
  | obj : List (String × JValue) → JValue

mutual

def JValue.decEq : (a b : JValue) → Decidable (a = b)
  | .str x, .str y =>
      if h : x = y then .isTrue (congrArg JValue.str h)
      else .isFalse (fun e => h (JValue.str.inj e))
  | .num x, .num y =>
      if h : x = y then .isTrue (congrArg JValue.num h)
      else .isFalse (fun e => h (JValue.num.inj e))
  | .bool x, .bool y =>
      if h : x = y then .isTrue (congrArg JValue.bool h)
      else .isFalse (fun e => h (JValue.bool.inj e))
  | .null, .null => .isTrue rfl
  | .arr xs, .arr ys =>
      match JValue.decEqList xs ys with
      | .isTrue h => .isTrue (congrArg JValue.arr h)
      | .isFalse h => .isFalse (fun e => h (JValue.arr.inj e))
  | .obj xs, .obj ys =>
      match JValue.decEqObj xs ys with
      | .isTrue h => .isTrue (congrArg JValue.obj h)
      | .isFalse h => .isFalse (fun e => h (JValue.obj.inj e))
  | .str _, .num _ => .isFalse nofun
  | .str _, .bool _ => .isFalse nofun
  | .str _, .null => .isFalse nofun
  | .str _, .arr _ => .isFalse nofun
  | .str _, .obj _ => .isFalse nofun
  | .num _, .str _ => .isFalse nofun
  | .num _, .bool _ => .isFalse nofun
  | .num _, .null => .isFalse nofun
  | .num _, .arr _ => .isFalse nofun
  | .num _, .obj _ => .isFalse nofun
  | .bool _, .str _ => .isFalse nofun
  | .bool _, .num _ => .isFalse nofun
  | .bool _, .null => .isFalse nofun
  | .bool _, .arr _ => .isFalse nofun
  | .bool _, .obj _ => .isFalse nofun
  | .null, .str _ => .isFalse nofun
  | .null, .num _ => .isFalse nofun
  | .null, .bool _ => .isFalse nofun
  | .null, .arr _ => .isFalse nofun
  | .null, .obj _ => .isFalse nofun
  | .arr _, .str _ => .isFalse nofun
  | .arr _, .num _ => .isFalse nofun
  | .arr _, .bool _ => .isFalse nofun
  | .arr _, .null => .isFalse nofun
  | .arr _, .obj _ => .isFalse nofun
  | .obj _, .str _ => .isFalse nofun
  | .obj _, .num _ => .isFalse nofun
  | .obj _, .bool _ => .isFalse nofun
  | .obj _, .null => .isFalse nofun
  | .obj _, .arr _ => .isFalse nofun

def JValue.decEqList : (xs ys : List JValue) → Decidable (xs = ys)
  | [], [] => .isTrue rfl
  | [], _ :: _ => .isFalse nofun
  | _ :: _, [] => .isFalse nofun
  | x :: xs, y :: ys =>
      match JValue.decEq x y with
      | .isFalse h => .isFalse (fun e => by injection e with e1 e2; exact h e1)
      | .isTrue h1 =>
          match JValue.decEqList xs ys with
          | .isTrue h2 => .isTrue (by rw [h1, h2])
          | .isFalse h2 => .isFalse (fun e => by injection e with e1 e2; exact h2 e2)

def JValue.decEqObj : (xs ys : List (String × JValue)) → Decidable (xs = ys)
  | [], [] => .isTrue rfl
  | [], _ :: _ => .isFalse nofun
  | _ :: _, [] => .isFalse nofun
  | (k1, v1) :: xs, (k2, v2) :: ys =>
      if hk : k1 = k2 then
        match JValue.decEq v1 v2 with
        | .isTrue hv =>
            match JValue.decEqObj xs ys with
            | .isTrue ht => .isTrue (by rw [hk, hv, ht])
            | .isFalse ht =>
                .isFalse (fun e => by injection e with e1 e2; exact ht e2)
        | .isFalse hv =>
            .isFalse (fun e => by
              injection e with e1 e2
              exact hv (congrArg Prod.snd e1))
      else
        .isFalse (fun e => by
          injection e with e1 e2
          exact hk (congrArg Prod.fst e1))

end

instance : DecidableEq JValue := JValue.decEq

/-- Model of `Message` from `src/communication_queue.py` (a frozen dataclass):
kind (`type`), payload, timestamp, unique id. The timestamp is an
integer tick of the modelled clock. -/
structure Message where
  type : String
  payload : List (String × JValue)
  timestamp : Int
  message_id : String
deriving DecidableEq

/-- Errors raised by `CommunicationQueue` methods: `ValueError` from the
type filter in `put` (carrying the offending kind). -/
inductive QueueError where
  | valueError : String → QueueError
deriving DecidableEq

/-- The id derivation of `Message.__post_init__`:
`f"{self.timestamp:.6f}_{threading.get_ident()}"`, rendered here over
integer ticks. -/
def idFromTimestamp (ts : Int) (tid : Nat) : String :=
  toString ts ++ "_" ++ toString tid

/-- Model of `Message(type, payload, timestamp, message_id)` followed by
`__post_init__` from `src/communication_queue.py`: a missing timestamp
is filled with the current time, a missing id is derived from the
timestamp and the producing thread ident. The constructor body contains
no raise statement, so the `Except` result is always `ok`. -/
def mkMessage (ty : String) (payload : List (String × JValue))
    (timestamp? : Option Int) (id? : Option String)
    (now : Int) (tid : Nat) : Except QueueError Message :=
  let ts := timestamp?.getD now
  let mid := id?.getD (idFromTimestamp ts tid)
  .ok { type := ty, payload := payload, timestamp := ts, message_id := mid }

/-- Errors of the spec-level envelope constructor. -/
inductive ConstructError where
  | invalidEnvelope : ConstructError
deriving DecidableEq

/-- Modelled from the spec: `construct(kind, payload)` of §4.1, which
"fails with `InvalidEnvelope` if `kind` is empty" and otherwise fills
timestamp and id automatically. This definition follows the spec's
words; it is the comparison point for the constructor actually found in
`src/communication_queue.py` (`mkMessage`). -/
def constructSpec (kind : String) (payload : List (String × JValue))
    (now : Int) (tid : Nat) : Except ConstructError Message :=
  if kind = "" then .error .invalidEnvelope
  else .ok { type := kind, payload := payload, timestamp := now,
             message_id := idFromTimestamp now tid }

/-- Model of `Message.to_dict` from `src/communication_queue.py`: the dictionary
with exactly the four fields. -/
def Message.to_dict (m : Message) : JValue :=
  .obj [("type", .str m.type), ("payload", .obj m.payload),
        ("timestamp", .num m.timestamp), ("message_id", .str m.message_id)]

/-- Dictionary subscript `data[k]`: `KeyError` (modelled as the offending
key) when absent. -/
def dictGet (d : List (String × JValue)) (k : String) : Except String JValue :=
  match d.lookup k with
  | some v => .ok v
  | none => .error k

/-- Model of `Message.from_dict` from `src/communication_queue.py`: reads the four
keys of the dictionary and rebuilds the message. The shape requirements
on the four values reflect the field types of the dataclass. -/
def Message.from_dict (j : JValue) : Except String Message :=
  match j with
  | .obj d => do
      let ty ← dictGet d "type"
      let pl ← dictGet d "payload"
      let ts ← dictGet d "timestamp"
      let mid ← dictGet d "message_id"
      match ty, pl, ts, mid with
      | .str t, .obj p, .num n, .str i =>
          .ok { type := t, payload := p, timestamp := n, message_id := i }
      | _, _, _, _ => .error "bad field shape"
  | _ => .error "not an object"

/-- Model of `MessageSerializer.serialize`: `json.dumps(message.to_dict())`,
embedded at the JSON-value level (the text and its value are in
bijection). -/
def MessageSerializer.serialize (m : Message) : JValue :=
  m.to_dict

/-- Model of `MessageSerializer.deserialize`: `Message.from_dict(json.loads(data))`. -/
def MessageSerializer.deserialize (j : JValue) : Except String Message :=
  Message.from_dict j

/-- C1: decoding the encoded textual form of any message reproduces it
exactly: `deserialize (serialize e) = ok e`, field for field (the
payload is reproduced key by key in its original order, so in particular
order-independent equality also holds). -/
theorem serialize_deserialize_roundtrip (m : Message) :
    MessageSerializer.deserialize (MessageSerializer.serialize m) = .ok m := rfl

/-- C2 counterexample: constructing a `Message` with the empty kind
succeeds — `__post_init__` performs no validation of `type`, so no
`InvalidEnvelope` (nor any other error) is raised, while the spec-level
constructor rejects the same input. -/
theorem empty_kind_construction_succeeds :
    mkMessage "" [] none none 0 0 =
      .ok { type := "", payload := [], timestamp := 0, message_id := "0_0" } ∧
    constructSpec "" [] 0 0 = .error .invalidEnvelope := by
  constructor <;> rfl

/-- C2 amended: `Message` construction never fails, for empty and
non-empty kinds alike — the constructor performs no kind validation and
merely auto-fills the timestamp with the current time and the id with
the timestamp/thread-ident derivation. -/
theorem construction_always_succeeds (ty : String)
    (payload : List (String × JValue)) (timestamp? : Option Int)
    (id? : Option String) (now : Int) (tid : Nat) :
    (mkMessage ty payload timestamp? id? now tid).isOk = true ∧
    mkMessage ty payload none none now tid =
      .ok { type := ty, payload := payload, timestamp := now,
            message_id := idFromTimestamp now tid } := by
  constructor <;> rfl

/-- Model of `CommunicationQueue` state from `src/communication_queue.py`.
`items` is the content of the inner `queue.Queue` (head first);
`message_types` is `None` or the non-empty allow-set built in
`__init__`; `hooks` is the insertion-ordered dictionary from kind to the
registration-ordered list of hook callback identifiers. Hook callbacks
themselves are identified by `Nat` and their behaviour is supplied to
`put` as an environment, keeping the state first-order. -/
structure CommQueue where
  items : List Message
  maxsize : Nat
  message_types : Option (List String)
  dropped_count : Nat
  hooks : List (String × List Nat)
deriving DecidableEq

/-- Model of `CommunicationQueue.__init__`: empty inner queue, drop counter zero,
no hooks; `set(message_types) if message_types else None` collapses an
absent or empty allow-list to `None` (allow all). -/
def mkCommQueue (maxsize : Nat) (message_types : Option (List String)) : CommQueue :=
  { items := []
    maxsize := maxsize
    message_types :=
      match message_types with
      | none => none
      | some l => if l.isEmpty then none else some l
    dropped_count := 0
    hooks := [] }

/-- The raise condition of `put`:
`self._message_types and message.type not in self._message_types`
(Python truthiness: `None` and the empty set are falsy). -/
def CommQueue.rejects (q : CommQueue) (msg : Message) : Bool :=
  match q.message_types with
  | none => false
  | some allowed => !allowed.isEmpty && decide (msg.type ∉ allowed)

/-- Model of `queue.Queue` fullness: `maxsize <= 0` means an unbounded queue. -/
def CommQueue.isFull (q : CommQueue) : Bool :=
  decide (0 < q.maxsize) && decide (q.maxsize ≤ q.items.length)

/-- The hook list consulted by `put` for a kind:
`self._hooks[message.type]` when present, nothing otherwise. -/
def CommQueue.hooksFor (q : CommQueue) (ty : String) : List Nat :=
  (q.hooks.lookup ty).getD []

/-- Appending to `self._hooks[message_type]` after creating the entry if
missing (`register_hook`): dictionary insertion order is kept, the new
callback goes to the end of its kind's list. -/
def hooksAppend : List (String × List Nat) → String → Nat → List (String × List Nat)
  | [], ty, h => [(ty, [h])]
  | (k, v) :: rest, ty, h =>
      if k = ty then (k, v ++ [h]) :: rest else (k, v) :: hooksAppend rest ty h

/-- Model of `CommunicationQueue.register_hook(message_type, callback)`. -/
def CommQueue.register_hook (q : CommQueue) (ty : String) (hid : Nat) : CommQueue :=
  { q with hooks := hooksAppend q.hooks ty hid }

instance {ε α : Type} [DecidableEq ε] [DecidableEq α] :
    DecidableEq (Except ε α) := fun a b =>
  match a, b with
  | .ok x, .ok y =>
      if h : x = y then .isTrue (congrArg Except.ok h)
      else .isFalse (fun e => h (by injection e))
  | .error x, .error y =>
      if h : x = y then .isTrue (congrArg Except.error h)
      else .isFalse (fun e => h (by injection e))
  | .ok _, .error _ => .isFalse nofun
  | .error _, .ok _ => .isFalse nofun

/-- Outcome of one `put` call: the returned value (or the raised
`ValueError`), the queue state afterwards, and the log of hook
invocations — one entry per invoked hook, in invocation order, holding
`none` for a hook that returned and `some e` for a hook that raised `e`
(the exception is caught and printed by `put`). -/
structure PutResult where
  result : Except QueueError Bool
  state : CommQueue
  hookLog : List (Nat × Option String)
deriving DecidableEq

/-- Model of `CommunicationQueue.put(message, block, timeout)`.
The pure model covers the completed call in the absence of interleaved
threads: a full queue makes the inner `put` raise `queue.Full` (at once
when `block` is false, after the timeout elapses otherwise), which is
counted as a drop and returned as `False`. On success the message is
enqueued at the tail and every hook registered for its kind runs in
registration order, each failure caught. `run hid msg` gives hook
`hid`'s behaviour on `msg`: `none` for normal return, `some e` for a
raised exception. -/
def CommQueue.put (q : CommQueue) (msg : Message) (block : Bool)
    (run : Nat → Message → Option String) : PutResult :=
  if q.rejects msg then
    { result := .error (.valueError msg.type), state := q, hookLog := [] }
  else if q.isFull then
    { result := .ok false
      state := { q with dropped_count := q.dropped_count + 1 }
      hookLog := [] }
  else
    { result := .ok true
      state := { q with items := q.items ++ [msg] }
      hookLog := (q.hooksFor msg.type).map (fun h => (h, run h msg)) }

/-- Model of `CommunicationQueue.get(block, timeout)`: head of the inner queue,
or `None` via the caught `queue.Empty` when the queue stays empty for
the duration of the call. -/
def CommQueue.get (q : CommQueue) : Option Message × CommQueue :=
  match q.items with
  | [] => (none, q)
  | m :: rest => (some m, { q with items := rest })

/-- The scanning loop of `get_by_type`: dequeue; return a message of the
requested kind; re-enqueue any other kind at the tail with
`self.put(msg, block=False)` (whose returned value the source ignores,
but whose `ValueError` would propagate) and continue. `fuel` bounds the
number of iterations of the modelled loop; the fuel-exhausted and
empty-queue outcomes are the timeout/non-blocking `None` returns of the
source. -/
def getByTypeGo (ty : String) (run : Nat → Message → Option String) :
    Nat → CommQueue → Except QueueError (Option Message × CommQueue)
  | 0, q => .ok (none, q)
  | fuel + 1, q =>
      match q.items with
      | [] => .ok (none, q)
      | m :: rest =>
          if m.type = ty then .ok (some m, { q with items := rest })
          else
            let r := CommQueue.put { q with items := rest } m false run
            match r.result with
            | .error e => .error e
            | .ok _ => getByTypeGo ty run fuel r.state

/-- Model of `CommunicationQueue.get_by_type(message_type, block, timeout)`,
with enough fuel to scan every message queued at the call. -/
def CommQueue.get_by_type (q : CommQueue) (ty : String)
    (run : Nat → Message → Option String) :
    Except QueueError (Option Message × CommQueue) :=
  getByTypeGo ty run q.items.length q

/-- Folding `put` over a list of messages (non-blocking), returning the
list of returned values and the final state; used to state claims about
"after K successful puts". -/
def putAll (q : CommQueue) (ms : List Message)
    (run : Nat → Message → Option String) :
    List (Except QueueError Bool) × CommQueue :=
  match ms with
  | [] => ([], q)
  | m :: rest =>
      let p := q.put m false run
      let (rs, q') := putAll p.state rest run
      (p.result :: rs, q')

/-- The queue reached from a fresh capacity-`K` allow-all queue after
putting the messages of `ms` in order. -/
def afterPuts (K : Nat) (ms : List Message)
    (run : Nat → Message → Option String) : CommQueue :=
  (putAll (mkCommQueue K none) ms run).2

theorem isFull_eq_false {q : CommQueue}
    (h : q.maxsize = 0 ∨ q.items.length < q.maxsize) : q.isFull = false := by
  rcases h with h | h
  · simp [CommQueue.isFull, h]
  · simp only [CommQueue.isFull, Bool.and_eq_false_iff, decide_eq_false_iff_not]
    right
    omega

theorem put_success (q : CommQueue) (msg : Message) (block : Bool)
    (run : Nat → Message → Option String)
    (hrej : q.rejects msg = false) (hfull : q.isFull = false) :
    q.put msg block run =
      { result := .ok true
        state := { q with items := q.items ++ [msg] }
        hookLog := (q.hooksFor msg.type).map (fun h => (h, run h msg)) } := by
  simp [CommQueue.put, hrej, hfull]

theorem put_full (q : CommQueue) (msg : Message) (block : Bool)
    (run : Nat → Message → Option String)
    (hrej : q.rejects msg = false) (hfull : q.isFull = true) :
    q.put msg block run =
      { result := .ok false
        state := { q with dropped_count := q.dropped_count + 1 }
        hookLog := [] } := by
  simp [CommQueue.put, hrej, hfull]

theorem putAll_ok (run : Nat → Message → Option String) :
    ∀ (ms : List Message) (q : CommQueue),
    (∀ x ∈ ms, q.rejects x = false) →
    (q.maxsize = 0 ∨ q.items.length + ms.length ≤ q.maxsize) →
    putAll q ms run =
      (ms.map (fun _ => Except.ok true), { q with items := q.items ++ ms }) := by
  intro ms
  induction ms with
  | nil => intro q _ _; simp [putAll]
  | cons m rest ih =>
      intro q hrej hsize
      have h1 : q.rejects m = false := hrej m (List.mem_cons_self m rest)
      have hfull : q.isFull = false := by
        apply isFull_eq_false
        rcases hsize with h | h
        · exact Or.inl h
        · right; simp only [List.length_cons] at h; omega
      have ih' := ih { q with items := q.items ++ [m] }
        (fun x hx => hrej x (List.mem_cons_of_mem m hx))
        (by
          rcases hsize with h | h
          · exact Or.inl h
          · right
            simp only [List.length_cons, List.length_append, List.length_nil] at h ⊢
            omega)
      simp [putAll, put_success q m false run h1 hfull, ih']

/-- C3: starting from a fresh capacity-`K` mailbox (no type filter),
`K` non-blocking puts all succeed; a further non-blocking put returns
`False` rather than raising, increments the drop counter by exactly 1,
runs no hooks, and the dropped message (assumed distinct from the queued
ones) is absent from the queue, so no later `get` can return it. -/
theorem full_mailbox_put_drops (K : Nat) (hK : 0 < K) (ms : List Message)
    (hlen : ms.length = K) (m : Message) (hm : m ∉ ms)
    (run run2 : Nat → Message → Option String) :
    (putAll (mkCommQueue K none) ms run).1 = ms.map (fun _ => Except.ok true) ∧
    (afterPuts K ms run).items = ms ∧
    (afterPuts K ms run).put m false run2 =
      { result := .ok false
        state := { afterPuts K ms run with
                   dropped_count := (afterPuts K ms run).dropped_count + 1 }
        hookLog := [] } ∧
    ((afterPuts K ms run).put m false run2).state.dropped_count = 1 ∧
    m ∉ ((afterPuts K ms run).put m false run2).state.items := by
  have hall := putAll_ok run ms (mkCommQueue K none) (fun x _ => rfl)
    (Or.inr (by simp [mkCommQueue, hlen]))
  have h2 : afterPuts K ms run = { mkCommQueue K none with items := ms } := by
    unfold afterPuts
    rw [hall]
    simp [mkCommQueue]
  have hfull : (afterPuts K ms run).isFull = true := by
    rw [h2]
    simp [CommQueue.isFull, mkCommQueue, hlen, hK]
  have hdrop := put_full (afterPuts K ms run) m false run2 (by rw [h2]; rfl) hfull
  refine ⟨by rw [hall], by rw [h2], hdrop, ?_, ?_⟩
  · rw [hdrop, h2]
    simp [mkCommQueue]
  · rw [hdrop]
    simp only []
    rw [h2]
    simpa [mkCommQueue] using hm

/-- Concrete sample messages used by witnesses. -/
def msgA : Message := { type := "status_update", payload := [], timestamp := 0, message_id := "a" }

def msgB : Message := { type := "data_update", payload := [], timestamp := 1, message_id := "b" }

def msgC : Message := { type := "status_update", payload := [], timestamp := 2, message_id := "c" }

theorem full_mailbox_put_drops_witness :
    0 < 2 ∧ ([msgA, msgB] : List Message).length = 2 ∧ msgC ∉ [msgA, msgB] ∧
    ((putAll (mkCommQueue 2 none) [msgA, msgB] (fun _ _ => none)).1 =
        [msgA, msgB].map (fun _ => Except.ok true) ∧
      (afterPuts 2 [msgA, msgB] (fun _ _ => none)).items = [msgA, msgB] ∧
      (afterPuts 2 [msgA, msgB] (fun _ _ => none)).put msgC false (fun _ _ => none) =
        { result := .ok false
          state := { afterPuts 2 [msgA, msgB] (fun _ _ => none) with
                     dropped_count :=
                       (afterPuts 2 [msgA, msgB] (fun _ _ => none)).dropped_count + 1 }
          hookLog := [] } ∧
      ((afterPuts 2 [msgA, msgB] (fun _ _ => none)).put msgC false
          (fun _ _ => none)).state.dropped_count = 1 ∧
      msgC ∉ ((afterPuts 2 [msgA, msgB] (fun _ _ => none)).put msgC false
          (fun _ _ => none)).state.items) :=
  ⟨by decide, by decide, by decide,
   full_mailbox_put_drops 2 (by decide) [msgA, msgB] (by decide) msgC (by decide)
     (fun _ _ => none) (fun _ _ => none)⟩

/-- C8: with a non-empty allow-list configured, `put` of a message whose
kind is absent raises `ValueError` synchronously — the state is
untouched (nothing enqueued, nothing counted as dropped, no hook run);
with the allow-list absent (`None`), which is also what an empty
allow-list collapses to at construction, `put` never raises. -/
theorem disallowed_kind_raises :
    (∀ (q : CommQueue) (msg : Message) (allowed : List String) (block : Bool)
        (run : Nat → Message → Option String),
        q.message_types = some allowed → allowed ≠ [] → msg.type ∉ allowed →
        q.put msg block run =
          { result := .error (.valueError msg.type), state := q, hookLog := [] }) ∧
    (∀ (q : CommQueue) (msg : Message) (block : Bool)
        (run : Nat → Message → Option String),
        q.message_types = none → (q.put msg block run).result.isOk = true) ∧
    (∀ (M : Nat), (mkCommQueue M (some [])).message_types = none) ∧
    (∀ (M : Nat), (mkCommQueue M none).message_types = none) := by
  refine ⟨?_, ?_, fun M => rfl, fun M => rfl⟩
  · intro q msg allowed block run hq hne hmem
    have hrej : q.rejects msg = true := by
      simp [CommQueue.rejects, hq, hmem, List.isEmpty_iff, hne]
    simp [CommQueue.put, hrej]
  · intro q msg block run hq
    have hrej : q.rejects msg = false := by
      simp [CommQueue.rejects, hq]
    by_cases hf : q.isFull
    · simp [CommQueue.put, hrej, hf, Except.isOk, Except.toBool]
    · simp [CommQueue.put, hrej, hf, Except.isOk, Except.toBool]

theorem disallowed_kind_raises_witness :
    (({ items := [], maxsize := 5, message_types := some ["status_update"],
        dropped_count := 0, hooks := [] } : CommQueue).message_types =
        some ["status_update"] ∧
      (["status_update"] : List String) ≠ [] ∧
      msgB.type ∉ (["status_update"] : List String) ∧
      ({ items := [], maxsize := 5, message_types := some ["status_update"],
         dropped_count := 0, hooks := [] } : CommQueue).put msgB false (fun _ _ => none) =
        { result := .error (.valueError msgB.type)
          state := { items := [], maxsize := 5, message_types := some ["status_update"],
                     dropped_count := 0, hooks := [] }
          hookLog := [] }) ∧
    ((mkCommQueue 5 none).message_types = none ∧
      ((mkCommQueue 5 none).put msgB false (fun _ _ => none)).result.isOk = true) :=
  ⟨⟨by decide, by decide, by decide,
    disallowed_kind_raises.1
      { items := [], maxsize := 5, message_types := some ["status_update"],
        dropped_count := 0, hooks := [] }
      msgB ["status_update"] false (fun _ _ => none) (by decide) (by decide) (by decide)⟩,
   ⟨by decide,
    disallowed_kind_raises.2.1 (mkCommQueue 5 none) msgB false (fun _ _ => none) (by decide)⟩⟩

theorem hooksAppend_lookup (ty : String) (h : Nat) :
    ∀ (l : List (String × List Nat)),
    (hooksAppend l ty h).lookup ty = some (((l.lookup ty).getD []) ++ [h]) := by
  intro l
  induction l with
  | nil => simp [hooksAppend, List.lookup]
  | cons p rest ih =>
      obtain ⟨k, v⟩ := p
      by_cases hk : k = ty
      · subst hk
        simp [hooksAppend, List.lookup]
      · have hbeq : (ty == k) = false := by
          simp [beq_iff_eq]
          exact fun e => hk e.symm
        simp [hooksAppend, hk, List.lookup, hbeq, ih]

/-- C9: on a successful enqueue, every hook registered for the message's
kind is invoked, in registration order (`register_hook` appends at the
end of its kind's list), and each invocation's outcome — including a
raised exception, which `put` catches and prints — is recorded without
stopping the remaining hooks; `put` still returns `True`, the message is
appended to the queue, and a subsequent `get` on a previously empty
queue returns exactly that message. -/
theorem throwing_hook_does_not_block_delivery (q : CommQueue) (msg : Message)
    (block : Bool) (run : Nat → Message → Option String)
    (hrej : q.rejects msg = false) (hfull : q.isFull = false) :
    (q.put msg block run).result = .ok true ∧
    (q.put msg block run).state.items = q.items ++ [msg] ∧
    (q.put msg block run).hookLog =
      (q.hooksFor msg.type).map (fun h => (h, run h msg)) ∧
    (q.items = [] → ((q.put msg block run).state.get).1 = some msg) ∧
    (∀ (ty : String) (hid : Nat),
      (q.register_hook ty hid).hooksFor ty = q.hooksFor ty ++ [hid]) := by
  have hp := put_success q msg block run hrej hfull
  refine ⟨by rw [hp], by rw [hp], by rw [hp], ?_, ?_⟩
  · intro h0
    rw [hp]
    simp [CommQueue.get, h0]
  · intro ty hid
    simp [CommQueue.register_hook, CommQueue.hooksFor, hooksAppend_lookup]

/-- A concrete queue with two hooks (ids 0 and 1) registered for
`msgA`'s kind, used by the C9 witness; hook 0 raises, hook 1 returns. -/
def hookedQueue : CommQueue :=
  (mkCommQueue 3 none).register_hook "status_update" 0 |>.register_hook "status_update" 1

/-- The hook environment of the C9 witness: hook 0 raises `"boom"`,
every other hook returns normally. -/
def hookEnvBoom : Nat → Message → Option String :=
  fun hid _ => if hid = 0 then some "boom" else none

theorem throwing_hook_does_not_block_delivery_witness :
    hookedQueue.rejects msgA = false ∧ hookedQueue.isFull = false ∧
    ((hookedQueue.put msgA false hookEnvBoom).result = .ok true ∧
      (hookedQueue.put msgA false hookEnvBoom).state.items = hookedQueue.items ++ [msgA] ∧
      (hookedQueue.put msgA false hookEnvBoom).hookLog =
        (hookedQueue.hooksFor msgA.type).map (fun h => (h, hookEnvBoom h msgA)) ∧
      (hookedQueue.items = [] →
        ((hookedQueue.put msgA false hookEnvBoom).state.get).1 = some msgA) ∧
      (∀ (ty : String) (hid : Nat),
        (hookedQueue.register_hook ty hid).hooksFor ty = hookedQueue.hooksFor ty ++ [hid])) :=
  ⟨by decide, by decide,
   throwing_hook_does_not_block_delivery hookedQueue msgA false hookEnvBoom
     (by decide) (by decide)⟩

theorem getByTypeGo_found (ty : String) (run : Nat → Message → Option String) :
    ∀ (pre : List Message) (m : Message) (post : List Message)
      (q : CommQueue) (fuel : Nat),
    q.items = pre ++ m :: post →
    m.type = ty →
    (∀ x ∈ pre, x.type ≠ ty) →
    (∀ x ∈ q.items, q.rejects x = false) →
    (q.maxsize = 0 ∨ q.items.length ≤ q.maxsize) →
    pre.length < fuel →
    getByTypeGo ty run fuel q = .ok (some m, { q with items := post ++ pre }) := by
  intro pre
  induction pre with
  | nil =>
      intro m post q fuel hq hty hpre hwf hsize hfuel
      cases fuel with
      | zero => omega
      | succ f =>
          simp only [getByTypeGo, hq]
          simp [hty]
  | cons x pre' ih =>
      intro m post q fuel hq hty hpre hwf hsize hfuel
      cases fuel with
      | zero => simp at hfuel
      | succ f =>
          have hx : x.type ≠ ty := hpre x (List.mem_cons_self x pre')
          have hrej : CommQueue.rejects { q with items := pre' ++ m :: post } x =
              false := by
            have := hwf x (by rw [hq]; exact List.mem_cons_self x _)
            simpa [CommQueue.rejects] using this
          have hnotfull : CommQueue.isFull { q with items := pre' ++ m :: post } =
              false := by
            apply isFull_eq_false
            rcases hsize with h | h
            · exact Or.inl h
            · right
              rw [hq] at h
              simp only [List.length_append, List.length_cons] at h ⊢
              omega
          have hput := put_success { q with items := pre' ++ m :: post } x false run
            hrej hnotfull
          have ih' := ih m (post ++ [x])
            { q with items := (pre' ++ m :: post) ++ [x] } f
            (by simp)
            hty
            (fun y hy => hpre y (List.mem_cons_of_mem x hy))
            (by
              intro y hy
              apply hwf y
              rw [hq]
              simp only [List.mem_append, List.mem_cons] at hy ⊢
              tauto)
            (by
              rcases hsize with h | h
              · exact Or.inl h
              · right
                rw [hq] at h
                simp only [List.length_append, List.length_cons,
                  List.length_nil] at h ⊢
                omega)
            (by simp only [List.length_cons] at hfuel; omega)
          simp only [getByTypeGo, hq, List.cons_append]
          rw [if_neg hx]
          rw [hput]
          simp only []
          rw [ih']
          simp

/-- C4: when some queued message has the requested kind, `get_by_type`
returns the first such message; every non-matching message dequeued
before it has been re-enqueued at the tail with `put(msg, block=False)`
(in scan order, after the messages that were queued behind the match),
so skipped messages are reordered relative to the rest but none is lost
and nothing else about the queue changes. The side conditions say that
every queued message passes the configured type filter and that the
queue is within capacity — both automatic for states reached through
`put`. -/
theorem get_by_type_requeues_skipped (q : CommQueue) (ty : String)
    (pre post : List Message) (m : Message) (run : Nat → Message → Option String)
    (hq : q.items = pre ++ m :: post) (hty : m.type = ty)
    (hpre : ∀ x ∈ pre, x.type ≠ ty)
    (hwf : ∀ x ∈ q.items, q.rejects x = false)
    (hsize : q.maxsize = 0 ∨ q.items.length ≤ q.maxsize) :
    q.get_by_type ty run = .ok (some m, { q with items := post ++ pre }) := by
  apply getByTypeGo_found ty run pre m post q q.items.length hq hty hpre hwf hsize
  rw [hq]
  simp only [List.length_append, List.length_cons]
  omega

theorem get_by_type_requeues_skipped_witness :
    (({ items := [msgB, msgA], maxsize := 5, message_types := none,
        dropped_count := 0, hooks := [] } : CommQueue).items =
        [msgB] ++ msgA :: [] ∧
      msgA.type = "status_update" ∧
      (∀ x ∈ [msgB], Message.type x ≠ "status_update")) ∧
    ({ items := [msgB, msgA], maxsize := 5, message_types := none,
       dropped_count := 0, hooks := [] } : CommQueue).get_by_type "status_update"
        (fun _ _ => none) =
      .ok (some msgA,
        { items := [] ++ [msgB], maxsize := 5, message_types := none,
          dropped_count := 0, hooks := [] }) :=
  ⟨⟨by decide, by decide, by decide⟩,
   get_by_type_requeues_skipped
     { items := [msgB, msgA], maxsize := 5, message_types := none,
       dropped_count := 0, hooks := [] }
     "status_update" [msgB] [] msgA (fun _ _ => none)
     (by decide) (by decide) (by decide) (by decide) (Or.inr (by decide))⟩

/-- Model of `PubSubWithQueue` state from `src/pubsub_module.py`.
`queues` is the heap of subscriber queues, keyed by `sub_id` (each
subscription creates exactly one queue, so the subscription id doubles
as the queue identity); queue contents are `Option α` values, `none`
being the `None` exit sentinel. `topics` is the insertion-ordered
dictionary from topic to the `sub_id → queue` dictionary, flattened to
the ordered list of its keys. `next_sub_id` starts at 1. -/
structure PubSub2 (α : Type) where
  queues : List (Nat × List (Option α))
  topics : List (String × List Nat)
  next_sub_id : Nat
deriving DecidableEq

/-- Model of `PubSubWithQueue.__init__` from `src/pubsub_module.py`. -/
def mkPubSub2 (α : Type) : PubSub2 α :=
  { queues := [], topics := [], next_sub_id := 1 }

/-- Model of `q.put(v)` on the queue with identity `qid` in the heap. -/
def queuePush {α : Type} : List (Nat × List (Option α)) → Nat → Option α →
    List (Nat × List (Option α))
  | [], _, _ => []
  | (k, c) :: rest, qid, v =>
      if k = qid then (k, c ++ [v]) :: queuePush rest qid v
      else (k, c) :: queuePush rest qid v

/-- Model of `self.topics[topic]` as the ordered list of its subscription ids
(empty when the topic is absent). -/
def topicSubs {α : Type} (s : PubSub2 α) (topic : String) : List Nat :=
  (s.topics.lookup topic).getD []

/-- Model of `if topic not in self.topics: self.topics[topic] = {}` followed by
`self.topics[topic][sub_id] = q`: create the topic entry if missing and
append the fresh subscription id at the end. -/
def subsAdd : List (String × List Nat) → String → Nat → List (String × List Nat)
  | [], topic, sid => [(topic, [sid])]
  | (k, v) :: rest, topic, sid =>
      if k = topic then (k, v ++ [sid]) :: rest
      else (k, v) :: subsAdd rest topic sid

/-- Model of `del self.topics[topic][sub_id]` followed by
`if not self.topics[topic]: del self.topics[topic]`. -/
def subsRemove : List (String × List Nat) → String → Nat → List (String × List Nat)
  | [], _, _ => []
  | (k, v) :: rest, topic, sid =>
      if k = topic then
        let v2 := v.erase sid
        if v2.isEmpty then rest else (k, v2) :: rest
      else (k, v) :: subsRemove rest topic sid

/-- Model of `PubSubWithQueue.subscribe(topic, consumer_callback)` from
`src/pubsub_module.py`: create a fresh queue, record it under a fresh
subscription id, and return the id (the consumer thread started on the
queue is modelled separately by `consumerRun`). -/
def PubSub2.subscribe {α : Type} (s : PubSub2 α) (topic : String) :
    Nat × PubSub2 α :=
  let sid := s.next_sub_id
  (sid,
   { queues := s.queues ++ [(sid, [])]
     topics := subsAdd s.topics topic sid
     next_sub_id := sid + 1 })

/-- Model of `PubSubWithQueue.unsubscribe(topic, sub_id, q)` from
`src/pubsub_module.py`: when the subscription is live, put the `None`
exit sentinel into the caller-passed queue (`qid`) and delete the
mapping, dropping the topic entry if it became empty; otherwise do
nothing. -/
def PubSub2.unsubscribe {α : Type} (s : PubSub2 α) (topic : String)
    (sub_id : Nat) (qid : Nat) : PubSub2 α :=
  if sub_id ∈ topicSubs s topic then
    { queues := queuePush s.queues qid none
      topics := subsRemove s.topics topic sub_id
      next_sub_id := s.next_sub_id }
  else s

/-- Model of `PubSubWithQueue.publish(topic, message)` from
`src/pubsub_module.py`: enqueue the message into every queue currently
subscribed to the topic; unknown topics are a no-op. -/
def PubSub2.publish {α : Type} (s : PubSub2 α) (topic : String) (msg : α) :
    PubSub2 α :=
  { s with
    queues := (topicSubs s topic).foldl
      (fun qs sid => queuePush qs sid (some msg)) s.queues }

/-- How a worker loop ends relative to a finite stream of dequeued
values: it observed the `None` sentinel and broke out (`terminated`),
it consumed everything available and is blocked in `q.get()`
(`waiting`), or the callback raised and — the loop body having no
exception handler — the exception escaped the thread (`crashed`). -/
inductive WorkerOutcome (E : Type) where
  | terminated : WorkerOutcome E
  | waiting : WorkerOutcome E
  | crashed : E → WorkerOutcome E
deriving DecidableEq

/-- Result of running a worker loop over a stream: how it ended, which
messages the callback completed, and the stream suffix it never
dequeued. -/
structure WorkerRun (α E : Type) where
  outcome : WorkerOutcome E
  processed : List α
  remaining : List (Option α)
deriving DecidableEq

/-- The inner `consumer` loop of `PubSubWithQueue.subscribe` from
`src/pubsub_module.py`:
`while True: msg = q.get(); if msg is None: break;`
`consumer_callback(msg); q.task_done()`.
`stream` is the sequence of values the blocking `q.get()` yields. The
callback is a function into `Except`; the loop body contains no
try/except, so an `error` outcome of the callback propagates out of the
loop and ends the thread. -/
def consumerRun {α E : Type} (cb : α → Except E Unit) :
    List (Option α) → WorkerRun α E
  | [] => { outcome := .waiting, processed := [], remaining := [] }
  | none :: rest => { outcome := .terminated, processed := [], remaining := rest }
  | some m :: rest =>
      match cb m with
      | .ok _ =>
          let r := consumerRun cb rest
          { outcome := r.outcome, processed := m :: r.processed,
            remaining := r.remaining }
      | .error e => { outcome := .crashed e, processed := [], remaining := rest }

/-- A concrete handler that raises on message `1` and returns normally
on everything else. -/
def cbBoom : Nat → Except String Unit :=
  fun n => if n = 1 then .error "boom" else .ok ()

/-- C5 counterexample: with messages `1` and `2` queued and a handler
that raises on `1`, the `pubsub_module` worker loop ends `crashed`
— the exception is not caught at the worker boundary — and the next
message `2` is never dequeued or processed, contradicting the claim
that the loop survives handler exceptions and proceeds to the next
message. -/
theorem handler_exception_kills_worker_cex :
    consumerRun cbBoom [some 1, some 2, none] =
      { outcome := .crashed "boom", processed := [],
        remaining := [some 2, none] } := by
  rfl

/-- C5 amended: in the `pubsub_module` worker loop an exception raised
by the handler is **not** caught: after any prefix of successfully
handled messages, the first message on which the handler raises ends the
loop with the exception escaping (`crashed`), and the rest of the stream
is never dequeued. (The `demo.py` router loop does wrap its dequeue and
dispatch in try/except, but it hands each message to a freshly spawned
thread, so handler exceptions never reach that boundary either — only
the spawned thread dies.) -/
theorem handler_exception_propagates {α E : Type} (cb : α → Except E Unit)
    (m : α) (e : E) (post : List (Option α)) (he : cb m = .error e) :
    ∀ (pre : List α), (∀ x ∈ pre, cb x = .ok ()) →
    consumerRun cb (pre.map some ++ some m :: post) =
      { outcome := .crashed e, processed := pre, remaining := post } := by
  intro pre
  induction pre with
  | nil => intro _; simp [consumerRun, he]
  | cons x pre' ih =>
      intro hok
      have hx := hok x (List.mem_cons_self x pre')
      simp [consumerRun, hx, ih (fun y hy => hok y (List.mem_cons_of_mem x hy))]

theorem handler_exception_propagates_witness :
    cbBoom 1 = .error "boom" ∧ (∀ x ∈ [2], cbBoom x = .ok ()) ∧
    consumerRun cbBoom ([2].map some ++ some 1 :: [none]) =
      { outcome := .crashed "boom", processed := [2], remaining := [none] } :=
  ⟨by decide, by decide,
   handler_exception_propagates cbBoom 1 "boom" [none] (by decide) [2] (by decide)⟩

theorem consumerRun_sentinel {α E : Type} (cb : α → Except E Unit)
    (post : List (Option α)) :
    ∀ (pre : List α), (∀ x ∈ pre, cb x = .ok ()) →
    consumerRun cb (pre.map some ++ none :: post) =
      { outcome := .terminated, processed := pre, remaining := post } := by
  intro pre
  induction pre with
  | nil => intro _; simp [consumerRun]
  | cons x pre' ih =>
      intro hok
      have hx := hok x (List.mem_cons_self x pre')
      simp [consumerRun, hx, ih (fun y hy => hok y (List.mem_cons_of_mem x hy))]

theorem lookup_none_of_key_not_mem {β : Type} (topic : String) :
    ∀ (l : List (String × β)), topic ∉ l.map Prod.fst → l.lookup topic = none := by
  intro l
  induction l with
  | nil => intro _; rfl
  | cons p rest ih =>
      intro h
      obtain ⟨k, v⟩ := p
      simp only [List.map_cons, List.mem_cons, not_or] at h
      have hbeq : (topic == k) = false := by
        simp only [beq_eq_false_iff_ne, ne_eq]
        exact h.1
      simp only [List.lookup, hbeq]
      exact ih h.2

theorem queuePush_lookup {α : Type} (qid : Nat) (v : Option α) :
    ∀ (qs : List (Nat × List (Option α))),
    (queuePush qs qid v).lookup qid = (qs.lookup qid).map (fun c => c ++ [v]) := by
  intro qs
  induction qs with
  | nil => simp [queuePush, List.lookup]
  | cons p rest ih =>
      obtain ⟨k, c⟩ := p
      by_cases hk : k = qid
      · subst hk
        simp [queuePush, List.lookup]
      · have hbeq : (qid == k) = false := by
          simp only [beq_eq_false_iff_ne, ne_eq]
          exact fun e => hk e.symm
        simp only [queuePush, if_neg hk, List.lookup, hbeq]
        exact ih

theorem subsRemove_not_mem (topic : String) (sid : Nat) :
    ∀ (ts : List (String × List Nat)),
    (ts.map Prod.fst).Nodup →
    ((ts.lookup topic).getD []).Nodup →
    sid ∉ ((subsRemove ts topic sid).lookup topic).getD [] := by
  intro ts
  induction ts with
  | nil => intro _ _; simp [subsRemove, List.lookup]
  | cons p rest ih =>
      intro hkeys hvals
      obtain ⟨k, v⟩ := p
      by_cases hk : k = topic
      · subst hk
        have hv : v.Nodup := by simpa [List.lookup] using hvals
        by_cases hemp : (v.erase sid).isEmpty
        · have hnot : k ∉ rest.map Prod.fst := by
            simp only [List.map_cons, List.nodup_cons] at hkeys
            exact hkeys.1
          have hrest := lookup_none_of_key_not_mem k rest hnot
          simp [subsRemove, hemp, hrest]
        · have hstep : subsRemove ((k, v) :: rest) k sid = (k, v.erase sid) :: rest := by
            simp [subsRemove, hemp]
          rw [hstep]
          simp [List.lookup]
          exact fun hmem => hv.not_mem_erase hmem
      · have hbeq : (topic == k) = false := by
          simp only [beq_eq_false_iff_ne, ne_eq]
          exact fun e => hk e.symm
        have hkeys' : (rest.map Prod.fst).Nodup := by
          simp only [List.map_cons, List.nodup_cons] at hkeys
          exact hkeys.2
        have hvals' : ((rest.lookup topic).getD []).Nodup := by
          simpa [List.lookup, hbeq] using hvals
        simp only [subsRemove, if_neg hk, List.lookup, hbeq]
        exact ih hkeys' hvals'

/-- C7: for a live subscription (its id is mapped under the topic, with
the Python-dict invariants that topic keys and the topic's subscription
ids are duplicate-free), `unsubscribe` pushes the `None` sentinel into
that subscription's queue and removes the `(topic, sub_id)` mapping;
and a worker loop whose remaining stream carries the sentinel, after any
prefix of normally handled messages, terminates upon dequeuing the
sentinel with the rest of the stream never dequeued — in particular a
worker blocked on an empty queue (`pre = []`) terminates at once on the
sentinel's arrival. -/
theorem unsubscribe_retires_and_worker_stops (α E : Type) :
    (∀ (s : PubSub2 α) (topic : String) (sid : Nat) (c : List (Option α)),
      (s.topics.map Prod.fst).Nodup →
      ((s.topics.lookup topic).getD []).Nodup →
      sid ∈ topicSubs s topic →
      s.queues.lookup sid = some c →
      ((s.unsubscribe topic sid sid).queues.lookup sid = some (c ++ [none]) ∧
        sid ∉ topicSubs (s.unsubscribe topic sid sid) topic)) ∧
    (∀ (cb : α → Except E Unit) (pre : List α) (post : List (Option α)),
      (∀ x ∈ pre, cb x = .ok ()) →
      consumerRun cb (pre.map some ++ none :: post) =
        { outcome := .terminated, processed := pre, remaining := post }) := by
  constructor
  · intro s topic sid c hkeys hvals hmem hlook
    constructor
    · simp only [PubSub2.unsubscribe, if_pos hmem]
      rw [queuePush_lookup sid none s.queues, hlook]
      rfl
    · simp only [PubSub2.unsubscribe, if_pos hmem]
      simp only [topicSubs]
      exact subsRemove_not_mem topic sid s.topics hkeys hvals
  · intro cb pre post hok
    exact consumerRun_sentinel cb post pre hok

/-- A concrete one-subscription registry used by the C7 witness:
subscription 1 on topic `"news"`, with one pending message. -/
def psEx : PubSub2 Nat :=
  { queues := [(1, [some 7])], topics := [("news", [1])], next_sub_id := 2 }

theorem unsubscribe_retires_and_worker_stops_witness :
    ((psEx.topics.map Prod.fst).Nodup ∧
      ((psEx.topics.lookup "news").getD []).Nodup ∧
      1 ∈ topicSubs psEx "news" ∧
      psEx.queues.lookup 1 = some [some 7] ∧
      ((psEx.unsubscribe "news" 1 1).queues.lookup 1 =
          some ([some 7] ++ [none]) ∧
        1 ∉ topicSubs (psEx.unsubscribe "news" 1 1) "news")) ∧
    ((∀ x ∈ ([] : List Nat), cbBoom x = .ok ()) ∧
      consumerRun cbBoom (([] : List Nat).map some ++ none :: []) =
        { outcome := .terminated, processed := [], remaining := [] }) :=
  ⟨⟨by decide, by decide, by decide, by decide,
    (unsubscribe_retires_and_worker_stops Nat String).1 psEx "news" 1 [some 7]
      (by decide) (by decide) (by decide) (by decide)⟩,
   ⟨by decide,
    (unsubscribe_retires_and_worker_stops Nat String).2 cbBoom [] [] (by decide)⟩⟩

/-- Model of `CommunicationTopic` from `src/demo.py`: the closed topic
enumeration. -/
inductive CommunicationTopic where
  | UNKNOWN
  | FROM_TASK
  | FROM_UI
  | SELECTED_TASK_START
  | SELECTED_TASK_STOP
  | AUTO_TASK_START
  | ADVANCE_AUTO_TASK_START
  | RESIZE_WINDOW
  | CLOSE_WINDOW
  | AUTO_LOGIN
  | TASK_PROCESS_UPDATE
  | WINDOW_STATUS
deriving DecidableEq

/-- Model of `PubSubMessage` dataclass from `src/demo.py`. -/
structure PubSubMessage where
  sender : String
  data : List (String × JValue)
  timestamp : Int
deriving DecidableEq

/-- Errors raised by the demo registry: the `KeyError` from subscripting
a missing dictionary key. -/
inductive DemoError where
  | keyError : DemoError
deriving DecidableEq

/-- Model of `PubSubWithQueue` state from `src/demo.py`: `queues` is the heap of
`queue.Queue` objects (identified by allocation order, contents with
`none` as the `None` sentinel); `sub_list` is the insertion-ordered
dictionary topic → (name → queue); `next_qid` allocates queue
identities. -/
structure DemoPubSub where
  queues : List (Nat × List (Option PubSubMessage))
  sub_list : List (CommunicationTopic × List (String × Nat))
  next_qid : Nat
deriving DecidableEq

/-- Model of `self.sub_list[topic]` as an ordered association list (empty when
the topic is absent). -/
def demoTopicSubs (s : DemoPubSub) (topic : CommunicationTopic) :
    List (String × Nat) :=
  (s.sub_list.lookup topic).getD []

/-- Model of `del self.sub_list[topic][name]`: remove the (unique, in any state
reachable through Python dicts) entry for `name`, keeping order. -/
def dropName : List (String × Nat) → String → List (String × Nat)
  | [], _ => []
  | (n, q) :: rest, name =>
      if n = name then rest else (n, q) :: dropName rest name

/-- Model of `del self.sub_list[topic][name]` followed by
`if not self.sub_list[topic]: del self.sub_list[topic]`. -/
def demoRemove : List (CommunicationTopic × List (String × Nat)) →
    CommunicationTopic → String → List (CommunicationTopic × List (String × Nat))
  | [], _, _ => []
  | (k, subs) :: rest, topic, name =>
      if k = topic then
        let subs2 := dropName subs name
        if subs2.isEmpty then rest else (k, subs2) :: rest
      else (k, subs) :: demoRemove rest topic name

/-- Model of `self.sub_list[topic][name] = q` with `topic` present: append the
fresh binding at the end of the topic's dictionary. -/
def demoInsert : List (CommunicationTopic × List (String × Nat)) →
    CommunicationTopic → String → Nat →
    List (CommunicationTopic × List (String × Nat))
  | [], topic, name, qid => [(topic, [(name, qid)])]
  | (k, subs) :: rest, topic, name, qid =>
      if k = topic then (k, subs ++ [(name, qid)]) :: rest
      else (k, subs) :: demoInsert rest topic name qid

/-- Model of `PubSubWithQueue.unsubscribe(name, topic)` from `src/demo.py`: when
`(topic, name)` is live, put the `None` sentinel into its queue, delete
the mapping, and delete the topic entry if it became empty; otherwise do
nothing. -/
def DemoPubSub.unsubscribe (s : DemoPubSub) (name : String)
    (topic : CommunicationTopic) : DemoPubSub :=
  match ((s.sub_list.lookup topic).getD []).lookup name with
  | none => s
  | some qid =>
      { queues := queuePush s.queues qid none
        sub_list := demoRemove s.sub_list topic name
        next_qid := s.next_qid }

/-- Model of `PubSubWithQueue.subscribe(name, topic)` from `src/demo.py`, step by
step: the falsy-name / `UNKNOWN`-topic guard returns `None`; the topic
entry is created if missing; a live `(topic, name)` mapping is first
retired via `unsubscribe`; finally `self.sub_list[topic][name] = q`
installs a fresh queue — which raises `KeyError` when the retirement
just deleted the topic entry (the fresh unreferenced `queue.Queue()` of
that failing path is not allocated into the heap). The returned state
keeps all mutations made before a raise, as in Python. -/
def DemoPubSub.subscribe (s : DemoPubSub) (name : String)
    (topic : CommunicationTopic) : Except DemoError (Option Nat) × DemoPubSub :=
  if name = "" ∨ topic = .UNKNOWN then (.ok none, s)
  else
    let s1 : DemoPubSub :=
      if (s.sub_list.lookup topic).isSome then s
      else { s with sub_list := s.sub_list ++ [(topic, [])] }
    let s2 : DemoPubSub :=
      if (((s1.sub_list.lookup topic).getD []).lookup name).isSome then
        s1.unsubscribe name topic
      else s1
    match s2.sub_list.lookup topic with
    | none => (.error .keyError, s2)
    | some _ =>
        let qid := s2.next_qid
        (.ok (some qid),
         { queues := s2.queues ++ [(qid, [])]
           sub_list := demoInsert s2.sub_list topic name qid
           next_qid := qid + 1 })

/-- Model of `PubSubWithQueue.publish(topic, message)` from `src/demo.py`:
enqueue into every mailbox of a subscribed topic; no-op on an unknown
topic or a falsy (`None`) message. -/
def DemoPubSub.publish (s : DemoPubSub) (topic : CommunicationTopic)
    (msg : Option PubSubMessage) : DemoPubSub :=
  match msg with
  | none => s
  | some m =>
      { s with
        queues := (demoTopicSubs s topic).foldl
          (fun qs p => queuePush qs p.2 (some m)) s.queues }

/-- C6 (code bug): re-subscribing the sole subscriber of a topic under
the same `(topic, name)` key retires the old mailbox (sentinel pushed,
mapping removed — the topic entry is deleted because it became empty)
and then crashes with `KeyError` at `self.sub_list[topic][name] = q`,
so the promised fresh mailbox is never installed. Evaluated at the
concrete failing input: one subscriber `"s1"` of `FROM_UI` with queue 0. -/
theorem resubscribe_sole_subscriber_keyerror :
    ({ queues := [(0, [])], sub_list := [(.FROM_UI, [("s1", 0)])],
       next_qid := 1 } : DemoPubSub).subscribe "s1" .FROM_UI =
      (.error .keyError,
       { queues := [(0, [none])], sub_list := [], next_qid := 1 }) := by
  decide

/-- C10: `subscribe` called with an empty name or the `UNKNOWN` topic
returns `None` instead of a mailbox handle, raises nothing, and leaves
the registry state completely unchanged — no queue is created, no
mapping added, no subscription retired. -/
theorem subscribe_guard_returns_none (s : DemoPubSub) (name : String)
    (topic : CommunicationTopic) (h : name = "" ∨ topic = .UNKNOWN) :
    s.subscribe name topic = (.ok none, s) := by
  simp only [DemoPubSub.subscribe, if_pos h]

/-- A live demo registry used by the C10 witness: `"s1"` subscribed to
`FROM_UI` with queue 0. -/
def demoEx : DemoPubSub :=
  { queues := [(0, [])], sub_list := [(.FROM_UI, [("s1", 0)])], next_qid := 1 }

theorem subscribe_guard_returns_none_witness :
    ("" = "" ∨ CommunicationTopic.FROM_UI = CommunicationTopic.UNKNOWN) ∧
    demoEx.subscribe "" .FROM_UI = (.ok none, demoEx) :=
  ⟨Or.inl rfl, subscribe_guard_returns_none demoEx "" .FROM_UI (Or.inl rfl)⟩
